import Mathlib

/-!
Verification development for the CoLoRS VCF anonymizer
(`docker/vcfparser/scripts/parser.py`).

The Python source is shallowly embedded: strings stay strings, the Python
string methods `split`/`join`/`rstrip`/`lower` and slicing are modelled on
the underlying character lists, `int(...)` becomes a partial parser
returning `Option Int`, list indexing and `list.index` become partial
operations, and every Python statement that can raise becomes an
`Except String` computation.  Exceptions are modelled functionally: a
raising call produces `Except.error` and no mutated state (in the source an
exception also aborts the method before the final writes to `self`, so the
observable record/parser state agrees on every property stated below).
-/

/-- Model of Python `str.split(sep)` for a single-character separator on the
character list: splits at every occurrence, keeping empty pieces.  Every
separator in the source (`":"`, `"/"`, `","`, `"\t"`, `"="`) is one character. -/
def splitOnChar (sep : Char) : List Char → List (List Char)
  | [] => [[]]
  | c :: cs =>
    if c = sep then [] :: splitOnChar sep cs
    else
      match splitOnChar sep cs with
      | [] => [[c]]
      | t :: ts => (c :: t) :: ts

/-- Model of Python `sep.join(parts)` for a single-character separator. -/
def joinWithChar (sep : Char) : List (List Char) → List Char
  | [] => []
  | [x] => x
  | x :: xs => x ++ sep :: joinWithChar sep xs

/-- Python `s.split(sep)` on strings. -/
def pySplit (sep : Char) (s : String) : List String :=
  (splitOnChar sep s.data).map String.mk

/-- Python `sep.join(parts)` on strings. -/
def pyJoin (sep : Char) (parts : List String) : String :=
  String.mk (joinWithChar sep (parts.map String.data))

/-- Python `s.rstrip()`: remove trailing whitespace. -/
def pyRstrip (s : String) : String :=
  String.mk ((s.data.reverse.dropWhile Char.isWhitespace).reverse)

/-- Python `s[n:]`: drop the first `n` characters. -/
def pyDrop (n : Nat) (s : String) : String :=
  String.mk (s.data.drop n)

/-- Python `s.lower()` (the source only lowercases ASCII tokens). -/
def pyLower (s : String) : String :=
  String.mk (s.data.map Char.toLower)

/-- `listLedBy pre l` is true when `pre` is an initial segment of `l`. -/
def listLedBy : List Char → List Char → Bool
  | [], _ => true
  | _ :: _, [] => false
  | a :: as, b :: bs => a = b && listLedBy as bs

/-- Python `s.startswith(pre)`. -/
def leadsWith (s pre : String) : Bool :=
  listLedBy pre.data s.data

/-- Strip leading and trailing whitespace (Python `int` ignores it). -/
def stripWS (cs : List Char) : List Char :=
  ((cs.dropWhile Char.isWhitespace).reverse.dropWhile Char.isWhitespace).reverse

/-- Decimal value of a digit list. -/
def digitsToNat (cs : List Char) : Nat :=
  cs.foldl (fun a c => a * 10 + (c.toNat - '0'.toNat)) 0

/-- A nonempty all-digit list parses to its value, anything else fails. -/
def digitsVal (cs : List Char) : Option Nat :=
  if cs = [] then none
  else if cs.all Char.isDigit then some (digitsToNat cs) else none

/-- Sign handling of Python `int(...)` after whitespace stripping. -/
def pyIntCore : List Char → Option Int
  | [] => none
  | c :: rest =>
    if c = '-' then (digitsVal rest).map (fun n => -(Int.ofNat n))
    else if c = '+' then (digitsVal rest).map Int.ofNat
    else (digitsVal (c :: rest)).map Int.ofNat

/-- Model of Python `int(s)`: optional surrounding whitespace, optional sign,
then decimal digits.  (Python additionally accepts underscores between
digits; no claim involves such literals.) -/
def pyInt (s : String) : Option Int :=
  pyIntCore (stripWS s.data)

/-- `int(s)` as a raising operation (`ValueError` on bad literals). -/
def pyIntE (s : String) : Except String Int :=
  match pyInt s with
  | some n => .ok n
  | none => .error ("ValueError: invalid literal for int: " ++ s)

/-- Normalization of a Python list index: negative indices count from the
end of the list. -/
def pyNorm (len : Nat) (i : Int) : Int :=
  if i < 0 then (len : Int) + i else i

/-- Python list indexing `l[i]` (negative indices count from the end,
out-of-range raises `IndexError`). -/
def pyGetE (l : List String) (i : Int) : Except String String :=
  if 0 ≤ pyNorm l.length i ∧ (pyNorm l.length i).toNat < l.length then
    .ok (l.getD (pyNorm l.length i).toNat "")
  else .error "IndexError: list index out of range"

/-- Python `l.index(x)`: first index of `x`, or `None` when absent. -/
def pyIndex {α : Type} [DecidableEq α] (x : α) : List α → Option Nat
  | [] => none
  | a :: as => if a = x then some 0 else (pyIndex x as).map (· + 1)

/-- Python `l.index(x)` as a raising operation (`ValueError` when absent). -/
def pyIndexE {α : Type} [DecidableEq α] (l : List α) (x : α) : Except String Nat :=
  match pyIndex x l with
  | some n => .ok n
  | none => .error "ValueError: element is not in list"

/-- Python `max(l)` (raises on an empty list). -/
def pyMaxE : List Int → Except String Int
  | [] => .error "ValueError: max() arg is an empty sequence"
  | c :: cs => .ok (cs.foldl max c)

/-- Strict `mapM` over `Except`, mirroring that a Python comprehension runs
left to right and aborts the whole statement at the first exception. -/
def listMapM {α β : Type} (f : α → Except String β) : List α → Except String (List β)
  | [] => .ok []
  | a :: as =>
    match f a with
    | .error e => .error e
    | .ok b =>
      match listMapM f as with
      | .error e => .error e
      | .ok bs => .ok (b :: bs)

/-- `true` exactly on `Except.error`. -/
def isErrB {α : Type} : Except String α → Bool
  | .error _ => true
  | .ok _ => false

/-- Exception-propagating sequencing (the `;` between two Python statements
where the first may raise): on `error` the second statement never runs. -/
def exBind {α β : Type} (x : Except String α) (f : α → Except String β) : Except String β :=
  match x with
  | .error e => .error e
  | .ok a => f a

/-! ## The streaming reader (`VCFParser`)

File opening and decompression are collaborators; the constructor is
modelled on the list of text lines of the input.  Reaching the end of the
list plays the role of `readline` returning `""` (which does not start with
`"#"` and therefore ends the metadata loop). -/

/-- State built by `VCFParser.__init__`: metadata block, header line and
sample names.  `header`/`samples` start out empty (the Python object simply
has no such attributes until a header line is parsed). -/
structure VCFParser where
  metadata : List String
  header : List String
  samples : List String
deriving DecidableEq, Repr

/-- The nine fixed header columns (`self.header_columns`). -/
def header_columns : List String :=
  ["CHROM", "POS", "ID", "REF", "ALT", "QUAL", "FILTER", "INFO", "FORMAT"]

/-- `VCFParser.parse_header_line`: checks the first nine tab-separated
columns and extracts the sample names; raises when the columns are wrong or
no sample column is present. -/
def parse_header_line (line : String) : Except String (List String × List String) :=
  let header := pySplit '\t' (pyRstrip (pyDrop 1 line))
  if header.take 9 ≠ header_columns then
    .error "VCF header does not contain the correct fields."
  else if (header.drop 9).length < 1 then
    .error "This VCF file does not contain any samples."
  else .ok (header, header.drop 9)

/-- The metadata `while` loop of `VCFParser.__init__`: `"##"` lines are
appended to the metadata, a single-`"#"` line is parsed as the header line
(replacing any previous one), the first other line (or end of input) stops
the loop. -/
def parseMetaLoop : List String → VCFParser → Except String VCFParser
  | [], st => .ok st
  | l :: rest, st =>
    let t := pyRstrip l
    if leadsWith t "##" then
      parseMetaLoop rest { st with metadata := st.metadata ++ [t] }
    else if leadsWith t "#" then
      exBind (parse_header_line t)
        (fun p => parseMetaLoop rest { st with header := p.1, samples := p.2 })
    else .ok st

/-- `VCFParser.__init__` after the file has been opened: the first line must
be a metadata/header line, then the metadata loop runs. -/
def mkVCFParser (lines : List String) : Except String VCFParser :=
  if leadsWith (pyRstrip (lines.headD "")) "#" then
    parseMetaLoop lines ⟨[], [], []⟩
  else .error "VCF files allways have to start with a metadata line."

/-- The reserved metadata keys of `VCFParser.add_meta`. -/
def reservedKeys : List String :=
  ["info", "filter", "format", "contig", "fileformat"]

/-- The rendered metadata line `f"##{key}={value}"`. -/
def metaLine (key value : String) : String :=
  "##" ++ key ++ "=" ++ value

/-- `VCFParser.add_meta`: reserved keys (case-insensitively) raise, a line
already present is ignored, otherwise the line is appended. -/
def add_meta (p : VCFParser) (key value : String) : Except String VCFParser :=
  if pyLower key ∈ reservedKeys then
    .error ("Metadata key " ++ key ++ " is reserved. Please use another key.")
  else if metaLine key value ∈ p.metadata then .ok p
  else .ok { p with metadata := p.metadata ++ [metaLine key value] }

/-- A word character of the sample-name pattern `[a-zA-Z0-9_]`. -/
def isWordChar (c : Char) : Bool :=
  c.isAlpha || c.isDigit || c = '_'

/-- Model of `re.match("^[a-zA-Z0-9_]+$", s)` being truthy: one or more word
characters spanning the whole string, where (per Python regex semantics)
`$` also matches just before a single newline at the end of the string. -/
def samplePatternMatch (s : String) : Bool :=
  let cs := if s.data.getLast? = some '\n' then s.data.dropLast else s.data
  !cs.isEmpty && cs.all isWordChar

/-- `VCFParser.change_sample_names`: a wrong list length or a name failing
the pattern raises (before any mutation); otherwise the sample list and the
trailing slice of the header are replaced. -/
def change_sample_names (p : VCFParser) (sample_names : List String) : Except String VCFParser :=
  if sample_names.length ≠ p.samples.length then
    .error "Number of sample names does not match number of samples"
  else if ¬ (sample_names.all samplePatternMatch) then
    .error "Sample names can only contain letters, numbers and underscores."
  else .ok { p with samples := sample_names, header := p.header.take 9 ++ sample_names }

/-! ## The per-variant record (`VariantRecord`) -/

/-- `VariantRecord`: the eagerly split fields of one data line plus the
original (parse-time) and current sample-data views. -/
structure VariantRecord where
  line : List String
  chrom : String
  pos : String
  id : String
  ref : String
  alts : List String
  alleles : List String
  info : String
  format : String
  variant_data : List String
  original_sample_data : List String
  sample_data : List String
deriving DecidableEq, Repr

/-- `VariantRecord.__init__` from a split variant line.  (The source indexes
`variant_line[0]` .. `[8]` directly; lines reaching it have at least ten
fields because their length equals the header length, so the `getD`
defaults are never exercised on such input.) -/
def mkVariantRecord (variant_line : List String) : VariantRecord :=
  { line := variant_line
    chrom := variant_line.getD 0 ""
    pos := variant_line.getD 1 ""
    id := variant_line.getD 2 ""
    ref := variant_line.getD 3 ""
    alts := pySplit ',' (variant_line.getD 4 "")
    alleles := variant_line.getD 3 "" :: pySplit ',' (variant_line.getD 4 "")
    info := variant_line.getD 7 ""
    format := variant_line.getD 8 ""
    variant_data := variant_line.take 9
    original_sample_data := variant_line.drop 9
    sample_data := variant_line.drop 9 }

/-- Phase one of `VariantRecord.update_genotypes` for one sample: split the
genotype sub-field on `"/"`, parse every haplotype token with `int(...)` and
resolve it through the current allele list of the record
(`self.alleles[hap]`, with Python list-indexing semantics). -/
def sampleFullGenotype (r : VariantRecord) (sample : String) : Except String (List String) :=
  listMapM
    (fun tok => exBind (pyIntE tok) (fun hap => pyGetE r.alleles hap))
    (pySplit '/' ((pySplit ':' sample).headD ""))

/-- Phase three of `VariantRecord.update_genotypes` for one sample: join the
new genotype indices with `"/"` and reattach the remaining colon-delimited
tokens. -/
def rebuildSample (sample : String) (new_genotype : List Nat) : String :=
  pyJoin ':' (pyJoin '/' (new_genotype.map (fun n => toString n)) :: (pySplit ':' sample).drop 1)

/-- `VariantRecord.update_genotypes`: recompute the genotype indices of
every sample with respect to the target allele list `[ref] + alts`
(`alleles.index(...)` raises when a symbol is absent), then rewrite the
sample strings and the serialized line. -/
def update_genotypes (r : VariantRecord) (ref : String) (alts : List String) : Except String VariantRecord :=
  exBind (listMapM (sampleFullGenotype r) r.sample_data)
    (fun full_genotypes =>
      exBind (listMapM (fun fg => listMapM (pyIndexE (ref :: alts)) fg) full_genotypes)
        (fun new_genotypes =>
          .ok { r with
                sample_data := List.zipWith rebuildSample r.sample_data new_genotypes,
                line := r.variant_data ++ List.zipWith rebuildSample r.sample_data new_genotypes }))

/-- `VariantRecord.in_regions`: the record position is inside some supplied
region `(chrom, start, end)` with an exclusive start and inclusive end. -/
def in_regions (chrom : String) (pos : Int) (regions : List (String × Int × Int)) : Bool :=
  regions.any (fun region => chrom = region.1 && (region.2.1 < pos && pos ≤ region.2.2))

/-- Lookup in `dict(zip(format, sample))`: for a duplicated key the last
pair wins, a missing key raises `KeyError`. -/
def dictGet (d : List (String × String)) (k : String) : Except String String :=
  match d.reverse.find? (fun p => p.1 = k) with
  | some p => .ok p.2
  | none => .error ("KeyError: " ++ k)

/-- `sample_dict |= {k: v}`: observationally (for the lookups the source
performs afterwards) updating the mapping is appending the pair, since
`dictGet` takes the last binding of a key. -/
def dictSet (d : List (String × String)) (k v : String) : List (String × String) :=
  d ++ [(k, v)]

/-- The dispatch of `VariantRecord.convert_to_haploid` on the FORMAT keys,
acting on the key→value mapping of one sample and returning the updated
mapping.

* `PL` branch: the source reads `sample_dict["GT"]` for a log test whenever
  `len(pls) != 2`, raises `ValueError` when the PL field does not have 3
  values, and otherwise evaluates `[10 ** (pl / -10) for pl in pls]` — but
  `pls` holds *strings*, so dividing `pl` by `-10` raises a `TypeError`
  before anything is updated.
* `AD` branch: with a tied maximum depth the source assigns `gt = "."` but
  never writes it into `sample_dict` (the update statement is inside the
  `else`), so the mapping is returned unchanged; with a unique maximum the
  genotype becomes the index of the maximum.
* `DR`/`DV` branch: the source parses both depths and then reads `max_ad`,
  a local variable that is never assigned on this path, raising
  `UnboundLocalError`.
* otherwise: `ValueError` (unsupported format). -/
def convertDict (format : List String) (sample_dict : List (String × String)) :
    Except String (List (String × String)) :=
  if "PL" ∈ format then
    exBind (dictGet sample_dict "PL") (fun plStr =>
      exBind (if (pySplit ',' plStr).length ≠ 2 then dictGet sample_dict "GT" else .ok "")
        (fun _gtStr =>
          if (pySplit ',' plStr).length ≠ 3 then
            .error "PL field does not have 3 values as expected"
          else
            .error "TypeError: unsupported operand types for div: str and int"))
  else if "AD" ∈ format then
    exBind (dictGet sample_dict "AD") (fun adStr =>
      exBind (listMapM pyIntE (pySplit ',' adStr)) (fun ads =>
        exBind (pyMaxE ads) (fun max_ad =>
          if ads.count max_ad ≠ 1 then
            .ok sample_dict
          else
            exBind (pyIndexE ads max_ad) (fun gt =>
              .ok (dictSet sample_dict "GT" (toString gt))))))
  else if "DR" ∈ format ∧ "DV" ∈ format then
    exBind (dictGet sample_dict "DR") (fun drStr =>
      exBind (pyIntE drStr) (fun _dr =>
        exBind (dictGet sample_dict "DV") (fun dvStr =>
          exBind (pyIntE dvStr) (fun _dv =>
            .error "UnboundLocalError: local variable max_ad referenced before assignment"))))
  else .error "Format is not supported for fixing ploidy."

/-- `VariantRecord.convert_to_haploid`: build the key→value mapping of the
selected sample, run the format dispatch, and read the format keys back out
of the updated mapping. -/
def convert_to_haploid (r : VariantRecord) (sample_idx : Nat) : Except String (List String) :=
  match r.sample_data.get? sample_idx with
  | none => .error "IndexError: list index out of range"
  | some sampleStr =>
    exBind
      (convertDict (pySplit ':' r.format)
        (List.zip (pySplit ':' r.format) (pySplit ':' sampleStr)))
      (fun d2 => listMapM (dictGet d2) (pySplit ':' r.format))

/-- The body of the per-sample loop of `VariantRecord.fix_ploidy`: male
samples are converted to haploid and re-joined with `":"`, female samples
are left alone, any other sex token raises. -/
def fixSample (r : VariantRecord) (sexes : List String) (sample_idx : Nat) : Except String String :=
  let sex := pyLower ((sexes.get? sample_idx).getD "")
  if sex = "m" ∨ sex = "male" ∨ sex = "xy" then
    exBind (convert_to_haploid r sample_idx) (fun new_sample => .ok (pyJoin ':' new_sample))
  else if sex = "f" ∨ sex = "female" ∨ sex = "xx" then
    .ok ((r.sample_data.get? sample_idx).getD "")
  else
    .error "The specified sex is not valid. Please use m, male, or xy for males and f, female, or xx for females."

/-- `VariantRecord.fix_ploidy`: check the sex-list length, refuse to run on
already-modified sample data, and inside a supplied region convert every
male sample to haploid; finally recombine the serializable line. -/
def fix_ploidy (r : VariantRecord) (sexes : List String)
    (regions : List (String × Int × Int)) : Except String VariantRecord :=
  if sexes.length ≠ r.sample_data.length then
    .error "Number of sexes does not match number of samples"
  else if r.original_sample_data ≠ r.sample_data then
    .error "Sample data has already been modified. Fix ploidy before shuffling samples or updating genotypes."
  else
    exBind (pyIntE r.pos) (fun pos =>
      if in_regions r.chrom pos regions then
        exBind (listMapM (fixSample r sexes) (List.range r.sample_data.length))
          (fun new_data =>
            .ok { r with sample_data := new_data, line := r.variant_data ++ new_data })
      else .ok { r with line := r.variant_data ++ r.sample_data })

/-! ## Derived definitions and concrete instances used by the claims -/

/-- The slash-delimited haplotype tokens of the genotype sub-field of a
sample string. -/
def gtToks (s : String) : List String :=
  pySplit '/' ((pySplit ':' s).headD "")

/-- The allele index a canonical haplotype token denotes. -/
def tokIdx (t : String) : Nat :=
  ((pyInt t).getD 0).toNat

/-- The allele symbol a haplotype token resolves to in the record. -/
def tokAllele (r : VariantRecord) (t : String) : String :=
  r.alleles.getD (tokIdx t) ""

/-- The leading block of `"#"`-initial (rstripped) lines that the metadata
loop of the constructor consumes. -/
def leadingBlock (lines : List String) : List String :=
  (lines.map pyRstrip).takeWhile (fun t => leadsWith t "#")

/-- Concrete record with a `PL` field (deepvariant-style). -/
def recC1 : VariantRecord :=
  mkVariantRecord ["X", "5", ".", "A", "T", ".", ".", ".", "GT:GQ:PL", "0/1:3:0,3,30"]

/-- Concrete record with a tied `AD` field (pbsv-style). -/
def recC2tie : VariantRecord :=
  mkVariantRecord ["X", "5", ".", "A", "T", ".", ".", ".", "GT:AD", "0/1:10,10"]

/-- Concrete record with a unique maximal `AD` entry. -/
def recC2argmax : VariantRecord :=
  mkVariantRecord ["X", "5", ".", "A", "T", ".", ".", ".", "GT:AD", "0/1:3,10"]

/-- Concrete record with `DR`/`DV` fields (sniffles-style). -/
def recC3 : VariantRecord :=
  mkVariantRecord ["X", "5", ".", "A", "T", ".", ".", ".", "GT:DR:DV", "0/1:3:10"]

/-- Concrete record used for the C4 witness. -/
def recC4 : VariantRecord :=
  mkVariantRecord ["X", "5", ".", "A", "T", ".", ".", ".", "GT:AD", "0/1:3,10"]

/-- The result of a first successful `fix_ploidy` on `recC4` (male sample,
in region): the genotype became `1`. -/
def recC4fixed : VariantRecord :=
  { recC4 with
    sample_data := ["1:3,10"],
    line := ["X", "5", ".", "A", "T", ".", ".", ".", "GT:AD", "1:3,10"] }

/-- Concrete record used for the C5 witness. -/
def recC5 : VariantRecord :=
  mkVariantRecord ["X", "5", ".", "A", "T", ".", ".", ".", "GT:AD", "0/1:3,10"]

/-- Record with a duplicated allele symbol (`REF A`, `ALT A`): used as the
C8 counterexample. -/
def recC8 : VariantRecord :=
  mkVariantRecord ["X", "5", ".", "A", "A", ".", ".", ".", "GT", "1"]

/-- Well-formed biallelic record used for the C8 witness. -/
def recC8ok : VariantRecord :=
  mkVariantRecord ["X", "5", ".", "A", "T", ".", ".", ".", "GT:GQ", "0/1:30"]

/-- Concrete record with an explicit no-call genotype `./.`. -/
def recC10 : VariantRecord :=
  mkVariantRecord ["X", "5", ".", "A", "T", ".", ".", ".", "GT", "./."]

/-- Concrete parser state used for the C7 and C9 witnesses. -/
def pC79 : VCFParser :=
  ⟨["##x=1"], header_columns ++ ["S1"], ["S1"]⟩

/-- A valid header line declaring sample `S1`. -/
def hLine1 : String :=
  "#CHROM\tPOS\tID\tREF\tALT\tQUAL\tFILTER\tINFO\tFORMAT\tS1"

/-- A valid header line declaring sample `S2`. -/
def hLine2 : String :=
  "#CHROM\tPOS\tID\tREF\tALT\tQUAL\tFILTER\tINFO\tFORMAT\tS2"

/-! ## Basic lemmas about the Python-primitive models -/

@[simp] theorem exBind_error {α β : Type} (e : String) (f : α → Except String β) :
    exBind (.error e) f = .error e := rfl

@[simp] theorem exBind_ok {α β : Type} (a : α) (f : α → Except String β) :
    exBind (.ok a) f = f a := rfl

@[simp] theorem isErrB_error {α : Type} (e : String) :
    isErrB (.error e : Except String α) = true := rfl

@[simp] theorem isErrB_ok {α : Type} (a : α) :
    isErrB (.ok a : Except String α) = false := rfl

theorem splitOnChar_ne_nil (sep : Char) (cs : List Char) : splitOnChar sep cs ≠ [] := by
  cases cs with
  | nil => simp [splitOnChar]
  | cons c cs =>
    simp only [splitOnChar]
    split
    · simp
    · split <;> simp

theorem joinWithChar_cons_ne (sep : Char) (x : List Char) {ys : List (List Char)}
    (h : ys ≠ []) : joinWithChar sep (x :: ys) = x ++ sep :: joinWithChar sep ys := by
  cases ys with
  | nil => exact absurd rfl h
  | cons y ys => rfl

theorem joinWithChar_splitOnChar (sep : Char) (cs : List Char) :
    joinWithChar sep (splitOnChar sep cs) = cs := by
  induction cs with
  | nil => rfl
  | cons c cs ih =>
    by_cases hc : c = sep
    · subst hc
      have h1 : splitOnChar c (c :: cs) = [] :: splitOnChar c cs := by
        simp [splitOnChar]
      rw [h1, joinWithChar_cons_ne c [] (splitOnChar_ne_nil c cs), ih]
      rfl
    · cases h : splitOnChar sep cs with
      | nil => exact absurd h (splitOnChar_ne_nil sep cs)
      | cons t ts =>
        have h1 : splitOnChar sep (c :: cs) = (c :: t) :: ts := by
          simp only [splitOnChar, if_neg hc, h]
        rw [h1]
        rw [h] at ih
        cases ts with
        | nil =>
          simp only [joinWithChar] at ih ⊢
          rw [ih]
        | cons u us =>
          rw [joinWithChar_cons_ne sep (c :: t) (by simp)]
          rw [joinWithChar_cons_ne sep t (by simp)] at ih
          rw [← ih]
          simp

theorem pyJoin_pySplit (sep : Char) (s : String) : pyJoin sep (pySplit sep s) = s := by
  cases s with
  | mk data =>
    simp only [pyJoin, pySplit, List.map_map]
    have hid : (String.data ∘ String.mk) = id := rfl
    rw [hid, List.map_id, joinWithChar_splitOnChar]

theorem pySplit_ne_nil (sep : Char) (s : String) : pySplit sep s ≠ [] := by
  simp only [pySplit, ne_eq, List.map_eq_nil_iff]
  exact splitOnChar_ne_nil sep s.data

theorem pySplit_cons (sep : Char) (s : String) :
    pySplit sep s = (pySplit sep s).headD "" :: (pySplit sep s).drop 1 := by
  cases h : pySplit sep s with
  | nil => exact absurd h (pySplit_ne_nil sep s)
  | cons t ts => simp

theorem mem_dropWhile_of_mem {α : Type} {p : α → Bool} {x : α}
    {l : List α} (hmem : x ∈ l) (hx : p x = false) : x ∈ l.dropWhile p := by
  induction l with
  | nil => exact absurd hmem (List.not_mem_nil x)
  | cons a as ih =>
    by_cases ha : p a = true
    · simp only [List.dropWhile_cons, ha, if_true]
      rcases List.mem_cons.mp hmem with rfl | hmem2
      · rw [hx] at ha; cases ha
      · exact ih hmem2
    · simp only [List.dropWhile_cons]
      rw [if_neg ha]
      exact hmem

theorem mem_stripWS_of_mem {x : Char} {l : List Char} (h : x ∈ l)
    (hx : x.isWhitespace = false) : x ∈ stripWS l := by
  unfold stripWS
  rw [List.mem_reverse]
  apply mem_dropWhile_of_mem _ hx
  rw [List.mem_reverse]
  exact mem_dropWhile_of_mem h hx

theorem digitsVal_none_of_mem {x : Char} {l : List Char} (h : x ∈ l)
    (hx : x.isDigit = false) : digitsVal l = none := by
  unfold digitsVal
  have hne : l ≠ [] := by rintro rfl; exact absurd h (List.not_mem_nil x)
  rw [if_neg hne, if_neg]
  intro hall
  rw [List.all_eq_true] at hall
  have hd := hall x h
  rw [hx] at hd
  cases hd

theorem pyInt_none_of_dot {s : String} (h : ('.' : Char) ∈ s.data) : pyInt s = none := by
  unfold pyInt
  have hmem : ('.' : Char) ∈ stripWS s.data := mem_stripWS_of_mem h (by decide)
  cases hsw : stripWS s.data with
  | nil => rw [hsw] at hmem; exact absurd hmem (List.not_mem_nil _)
  | cons c rest =>
    rw [hsw] at hmem
    simp only [pyIntCore]
    by_cases hc : c = '-'
    · rw [if_pos hc]
      have hr : ('.' : Char) ∈ rest := by
        rcases List.mem_cons.mp hmem with hh | hr
        · exact absurd (hh.trans hc) (by decide)
        · exact hr
      rw [digitsVal_none_of_mem hr (by decide)]
      rfl
    · rw [if_neg hc]
      by_cases hc2 : c = '+'
      · rw [if_pos hc2]
        have hr : ('.' : Char) ∈ rest := by
          rcases List.mem_cons.mp hmem with hh | hr
          · exact absurd (hh.trans hc2) (by decide)
          · exact hr
        rw [digitsVal_none_of_mem hr (by decide)]
        rfl
      · rw [if_neg hc2]
        rw [digitsVal_none_of_mem hmem (by decide)]
        rfl

theorem listMapM_err_of_mem {α β : Type} {f : α → Except String β} {x : α}
    {l : List α} (hmem : x ∈ l) (hx : isErrB (f x) = true) :
    isErrB (listMapM f l) = true := by
  induction l with
  | nil => exact absurd hmem (List.not_mem_nil x)
  | cons a as ih =>
    simp only [listMapM]
    rcases List.mem_cons.mp hmem with rfl | hmem2
    · cases hfa : f x with
      | error e => rfl
      | ok b => rw [hfa] at hx; cases hx
    · cases hfa : f a with
      | error e => rfl
      | ok b =>
        have h2 := ih hmem2
        cases hrest : listMapM f as with
        | error e => rfl
        | ok bs => rw [hrest] at h2; cases h2

theorem listMapM_congr_ok {α β : Type} (f : α → Except String β) (g : α → β) :
    ∀ (l : List α), (∀ a ∈ l, f a = .ok (g a)) → listMapM f l = .ok (l.map g) := by
  intro l
  induction l with
  | nil => intro _; rfl
  | cons a as ih =>
    intro h
    simp only [listMapM]
    rw [h a (List.mem_cons_self a as), ih (fun x hx => h x (List.mem_cons_of_mem a hx))]
    rfl

theorem listMapM_map {α β γ : Type} (f : β → Except String γ) (g : α → β) (l : List α) :
    listMapM f (l.map g) = listMapM (fun a => f (g a)) l := by
  induction l with
  | nil => rfl
  | cons a as ih =>
    simp only [List.map_cons, listMapM, ih]

theorem pyGetE_nat {l : List String} {n : Nat} (h : n < l.length) :
    pyGetE l (n : Int) = .ok (l.getD n "") := by
  have hnorm : pyNorm l.length (n : Int) = (n : Int) := by simp [pyNorm]
  unfold pyGetE
  rw [hnorm]
  rw [if_pos ⟨Int.ofNat_nonneg n, by simpa using h⟩]
  simp

theorem pyIndex_getD {l : List String} (hnd : l.Nodup) :
    ∀ {n : Nat}, n < l.length → pyIndex (l.getD n "") l = some n := by
  induction l with
  | nil => intro n h; cases h
  | cons a as ih =>
    intro n h
    cases n with
    | zero => simp [pyIndex, List.getD]
    | succ m =>
      have hm : m < as.length := by simpa using h
      have hgd : (a :: as).getD (m + 1) "" = as.getD m "" := by
        simp [List.getD]
      rw [hgd]
      unfold pyIndex
      have hamem : as.getD m "" ∈ as := by
        rw [List.getD_eq_getElem as "" hm]
        exact List.getElem_mem hm
      have hane : ¬ (a = as.getD m "") := by
        intro hcontra
        rw [hcontra] at hnd
        exact (List.nodup_cons.mp hnd).1 hamem
      rw [if_neg hane, ih (List.nodup_cons.mp hnd).2 hm]
      rfl

theorem leadsWith_hash_of_hash2 {t : String} (h : leadsWith t "##" = true) :
    leadsWith t "#" = true := by
  unfold leadsWith at h ⊢
  have h2 : ("##".data) = ['#', '#'] := rfl
  have h1 : ("#".data) = ['#'] := rfl
  rw [h2] at h
  rw [h1]
  cases ht : t.data with
  | nil => rw [ht] at h; cases h
  | cons c cs =>
    rw [ht] at h
    simp only [listLedBy, Bool.and_eq_true, decide_eq_true_eq] at h ⊢
    exact ⟨h.1, trivial⟩

/-! ## Helper lemmas about the record and reader operations -/

theorem convertDict_pl_err (format : List String) (d : List (String × String))
    (hPL : "PL" ∈ format) : isErrB (convertDict format d) = true := by
  unfold convertDict
  rw [if_pos hPL]
  cases h1 : dictGet d "PL" with
  | error e => simp
  | ok plStr =>
    simp only [exBind_ok]
    cases h2 : (if (pySplit ',' plStr).length ≠ 2 then dictGet d "GT" else .ok "") with
    | error e => simp
    | ok u =>
      simp only [exBind_ok]
      by_cases h3 : (pySplit ',' plStr).length ≠ 3
      · rw [if_pos h3]; rfl
      · rw [if_neg h3]; rfl

theorem parseMetaLoop_err (lines : List String) : ∀ (st : VCFParser),
    isErrB (parseMetaLoop lines st) = true ↔
      ∃ t ∈ leadingBlock lines,
        leadsWith t "##" = false ∧ isErrB (parse_header_line t) = true := by
  induction lines with
  | nil => intro st; simp [parseMetaLoop, leadingBlock]
  | cons l rest ih =>
    intro st
    have hblock : leadingBlock (l :: rest) =
        (if leadsWith (pyRstrip l) "#" then pyRstrip l :: leadingBlock rest else []) := by
      unfold leadingBlock
      rw [List.map_cons, List.takeWhile_cons]
    simp only [parseMetaLoop]
    by_cases h2 : leadsWith (pyRstrip l) "##" = true
    · rw [if_pos h2]
      have h1 := leadsWith_hash_of_hash2 h2
      rw [hblock, if_pos h1]
      constructor
      · intro hl
        obtain ⟨t, ht, hP⟩ := (ih _).mp hl
        exact ⟨t, List.mem_cons_of_mem _ ht, hP⟩
      · rintro ⟨t, htmem, hP⟩
        rcases List.mem_cons.mp htmem with rfl | htail
        · exact absurd hP.1 (by simp [h2])
        · exact (ih _).mpr ⟨t, htail, hP⟩
    · by_cases h1 : leadsWith (pyRstrip l) "#" = true
      · rw [if_neg h2, if_pos h1, hblock, if_pos h1]
        cases hp : parse_header_line (pyRstrip l) with
        | error e =>
          simp only [exBind_error, isErrB_error]
          constructor
          · intro _
            refine ⟨pyRstrip l, List.mem_cons_self _ _, ?_, ?_⟩
            · simpa using h2
            · rw [hp]; rfl
          · intro _; trivial
        | ok p =>
          simp only [exBind_ok]
          constructor
          · intro hl
            obtain ⟨t, ht, hP⟩ := (ih _).mp hl
            exact ⟨t, List.mem_cons_of_mem _ ht, hP⟩
          · rintro ⟨t, htmem, hP⟩
            rcases List.mem_cons.mp htmem with rfl | htail
            · exact absurd hP.2 (by rw [hp]; simp)
            · exact (ih _).mpr ⟨t, htail, hP⟩
      · rw [if_neg h2, if_neg h1, hblock, if_neg h1]
        simp

/-! ## The claims -/

/-- C1: the claimed PL-based haploid conversion never happens: whenever the
FORMAT keys contain `PL`, `convert_to_haploid` raises (for 3 PL values the
source divides the *string* PL entries by `-10`, a `TypeError`), so no
record gets the claimed probabilities, genotype or GQ. -/
theorem claim_C1_pl_branch_raises (r : VariantRecord) (sample_idx : Nat)
    (hPL : "PL" ∈ pySplit ':' r.format) :
    isErrB (convert_to_haploid r sample_idx) = true := by
  unfold convert_to_haploid
  cases hs : r.sample_data.get? sample_idx with
  | none => rfl
  | some sampleStr =>
    have h := convertDict_pl_err (pySplit ':' r.format)
      (List.zip (pySplit ':' r.format) (pySplit ':' sampleStr)) hPL
    cases hc : convertDict (pySplit ':' r.format)
        (List.zip (pySplit ':' r.format) (pySplit ':' sampleStr)) with
    | error e => simp [hc]
    | ok d2 => rw [hc] at h; cases h

/-- C1 witness: the example of the spec itself, `PL = [0,3,30]`, raises. -/
theorem claim_C1_witness :
    ("PL" ∈ pySplit ':' recC1.format) ∧ isErrB (convert_to_haploid recC1 0) = true :=
  ⟨by decide, claim_C1_pl_branch_raises recC1 0 (by decide)⟩

/-- C2: on a tied `AD` the source computes `gt = "."` but never writes it
back (the `sample_dict` update is inside the `else`), so the genotype field
is returned unchanged instead of becoming the claimed no-call `"."`; the
unique-maximum case does set the genotype to the argmax index. -/
theorem claim_C2_ad_tie_leaves_gt :
    convert_to_haploid recC2tie 0 = .ok ["0/1", "10,10"]
    ∧ convert_to_haploid recC2argmax 0 = .ok ["1", "3,10"] :=
  ⟨rfl, rfl⟩

/-- C3: the `DR`/`DV` branch does not apply the tie/argmax rule at all: it
reads the local `max_ad`, which is never assigned on this path, so the
conversion raises `UnboundLocalError` for e.g. `DR=3, DV=10` instead of
producing genotype 1. -/
theorem claim_C3_drdv_raises :
    convert_to_haploid recC3 0 =
      .error "UnboundLocalError: local variable max_ad referenced before assignment" :=
  rfl

/-- C4: `fix_ploidy` fails whenever the current sample data differs from the
parse-time snapshot, and consequently a second `fix_ploidy` fails whenever
the first one modified at least one sample. -/
theorem claim_C4_fix_ploidy_ordering (r : VariantRecord) (sexes : List String)
    (regions : List (String × Int × Int)) :
    (r.original_sample_data ≠ r.sample_data → isErrB (fix_ploidy r sexes regions) = true)
    ∧ (∀ r', fix_ploidy r sexes regions = .ok r' → r'.sample_data ≠ r.sample_data →
        isErrB (fix_ploidy r' sexes regions) = true) := by
  have key : ∀ (rr : VariantRecord), rr.original_sample_data ≠ rr.sample_data →
      isErrB (fix_ploidy rr sexes regions) = true := by
    intro rr hne
    unfold fix_ploidy
    by_cases hlen : sexes.length ≠ rr.sample_data.length
    · rw [if_pos hlen]; rfl
    · rw [if_neg hlen, if_pos hne]; rfl
  refine ⟨key r, ?_⟩
  intro r' hok hmod
  unfold fix_ploidy at hok
  by_cases hlen : sexes.length ≠ r.sample_data.length
  · rw [if_pos hlen] at hok; cases hok
  · rw [if_neg hlen] at hok
    by_cases horig : r.original_sample_data ≠ r.sample_data
    · rw [if_pos horig] at hok; cases hok
    · rw [if_neg horig] at hok
      push_neg at horig
      cases hpos : pyIntE r.pos with
      | error e =>
        rw [hpos] at hok
        simp only [exBind_error] at hok
        cases hok
      | ok ipos =>
        rw [hpos] at hok
        simp only [exBind_ok] at hok
        by_cases hin : in_regions r.chrom ipos regions = true
        · rw [if_pos hin] at hok
          cases hmapm : listMapM (fixSample r sexes) (List.range r.sample_data.length) with
          | error e =>
            rw [hmapm] at hok
            simp only [exBind_error] at hok
            cases hok
          | ok nd =>
            rw [hmapm] at hok
            simp only [exBind_ok, Except.ok.injEq] at hok
            subst hok
            have hmod' : nd ≠ r.sample_data := by simpa using hmod
            refine key _ ?_
            show r.original_sample_data ≠ nd
            rw [horig]
            exact Ne.symm hmod'
        · rw [if_neg hin, Except.ok.injEq] at hok
          subst hok
          exact absurd rfl hmod

/-- C4 witness: a first `fix_ploidy` on `recC4` succeeds and modifies the
sample, and the second call on the result fails; a record whose current
sample data was tampered with also fails directly. -/
theorem claim_C4_witness :
    isErrB (fix_ploidy recC4fixed ["m"] [("X", 0, 100)]) = true
    ∧ isErrB (fix_ploidy { recC4 with sample_data := ["x"] } ["m"] [("X", 0, 100)]) = true :=
  ⟨(claim_C4_fix_ploidy_ordering recC4 ["m"] [("X", 0, 100)]).2 recC4fixed rfl (by decide),
   (claim_C4_fix_ploidy_ordering { recC4 with sample_data := ["x"] } ["m"] [("X", 0, 100)]).1
     (by decide)⟩

/-- C5: region membership holds exactly when the chromosome matches and
`start < pos <= end` for *some* supplied region (exclusive start, inclusive
end, all regions consulted); a record whose position lies in no region is
returned unmodified by `fix_ploidy`. -/
theorem claim_C5_in_regions :
    (∀ (chrom : String) (pos : Int) (regions : List (String × Int × Int)),
      in_regions chrom pos regions = true ↔
        ∃ region ∈ regions, chrom = region.1 ∧ region.2.1 < pos ∧ pos ≤ region.2.2)
    ∧ (∀ (r : VariantRecord) (sexes : List String) (regions : List (String × Int × Int))
        (ipos : Int),
        pyIntE r.pos = .ok ipos →
        in_regions r.chrom ipos regions = false →
        sexes.length = r.sample_data.length →
        r.original_sample_data = r.sample_data →
        r.line = r.variant_data ++ r.sample_data →
        fix_ploidy r sexes regions = .ok r) := by
  constructor
  · intro chrom pos regions
    simp [in_regions, List.any_eq_true, Bool.and_eq_true, decide_eq_true_eq, and_assoc]
  · intro r sexes regions ipos hpos hreg hlen horig hline
    obtain ⟨vline, vchrom, vpos, vid, vref, valts, valleles, vinfo, vformat, vvd, vosd, vsd⟩ := r
    simp only at hpos hreg hlen horig hline ⊢
    subst hline
    unfold fix_ploidy
    rw [if_neg (by simp [hlen]), if_neg (by simp [horig])]
    rw [hpos]
    simp only [exBind_ok]
    rw [if_neg (by simp [hreg])]

/-- C5 witness: position 5 is outside `("X", 5, 10)` (exclusive start) and
`fix_ploidy` returns the record unchanged; position 10 is inside (inclusive
end). -/
theorem claim_C5_witness :
    fix_ploidy recC5 ["m"] [("X", 5, 10), ("Y", 0, 100)] = .ok recC5
    ∧ in_regions "X" 10 [("X", 5, 10)] = true :=
  ⟨claim_C5_in_regions.2 recC5 ["m"] [("X", 5, 10), ("Y", 0, 100)] 5
      rfl (by decide) (by decide) (by decide) (by decide),
   (claim_C5_in_regions.1 "X" 10 [("X", 5, 10)]).mpr (by decide)⟩

/-- C6 counterexample: two individually valid header lines — the claim says
construction must fail when more than one header line appears in the
metadata block, but the constructor succeeds, re-parsing the header so that
the last line wins. -/
theorem claim_C6_counterexample :
    isErrB (parse_header_line hLine1) = false
    ∧ isErrB (parse_header_line hLine2) = false
    ∧ mkVCFParser [hLine1, hLine2] = .ok ⟨[], header_columns ++ ["S2"], ["S2"]⟩ :=
  ⟨rfl, rfl, rfl⟩

/-- C6 (amended): construction fails exactly when the first line is not a
metadata/header line, or some single-`"#"` line of the leading block fails
header validation (wrong first nine columns, or zero samples); additional
valid header lines do not fail — each is re-parsed and the last one wins. -/
theorem claim_C6_construction_failures (lines : List String) :
    isErrB (mkVCFParser lines) = true ↔
      (leadsWith (pyRstrip (lines.headD "")) "#" = false
       ∨ ∃ t ∈ leadingBlock lines,
           leadsWith t "##" = false ∧ isErrB (parse_header_line t) = true) := by
  unfold mkVCFParser
  by_cases h0 : leadsWith (pyRstrip (lines.headD "")) "#" = true
  · rw [if_pos h0, parseMetaLoop_err lines ⟨[], [], []⟩]
    constructor
    · intro h; exact Or.inr h
    · rintro (hB | hA)
      · rw [h0] at hB; cases hB
      · exact hA
  · rw [if_neg h0]
    constructor
    · intro _
      exact Or.inl (by simpa using h0)
    · intro _; rfl

/-- C7 counterexample: `"abc\n"` does not consist of letters, digits and
underscores (the claimed pattern), yet `change_sample_names` accepts it —
the Python `$` anchor also matches just before a trailing newline, so
`re.match("^[a-zA-Z0-9_]+$", "abc\n")` is truthy and no `ValidationError`
is raised. -/
theorem claim_C7_counterexample :
    ("abc\n".data.all isWordChar = false)
    ∧ change_sample_names pC79 ["abc\n"] =
        .ok ⟨["##x=1"], header_columns ++ ["abc\n"], ["abc\n"]⟩ :=
  ⟨by decide, rfl⟩

/-- C7 (amended): `change_sample_names` rejects a list of the wrong length,
rejects a list containing a name failing the sample pattern — where a single
trailing newline after the word characters is additionally tolerated — and
otherwise rewrites only the sample list and the trailing slice of the
header, keeping the nine fixed columns. -/
theorem claim_C7_change_sample_names (p : VCFParser) (names : List String) :
    (names.length ≠ p.samples.length → isErrB (change_sample_names p names) = true)
    ∧ ((∃ n ∈ names, samplePatternMatch n = false) →
        isErrB (change_sample_names p names) = true)
    ∧ (names.length = p.samples.length → (∀ n ∈ names, samplePatternMatch n = true) →
        change_sample_names p names =
          .ok { p with samples := names, header := p.header.take 9 ++ names })
    ∧ (9 ≤ p.header.length → ∀ p', change_sample_names p names = .ok p' →
        p'.header.take 9 = p.header.take 9) := by
  refine ⟨?_, ?_, ?_, ?_⟩
  · intro hlen
    unfold change_sample_names
    rw [if_pos hlen]
    rfl
  · intro hbad
    unfold change_sample_names
    by_cases hlen : names.length ≠ p.samples.length
    · rw [if_pos hlen]; rfl
    · rw [if_neg hlen, if_pos]
      · rfl
      · intro hall
        rcases hbad with ⟨n, hn, hfalse⟩
        rw [List.all_eq_true] at hall
        rw [hall n hn] at hfalse
        cases hfalse
  · intro hlen hall
    unfold change_sample_names
    rw [if_neg (by omega), if_neg]
    intro hnot
    rw [List.all_eq_true] at hnot
    exact hnot (fun n hn => hall n hn)
  · intro h9 p' hok
    unfold change_sample_names at hok
    by_cases hlen : names.length ≠ p.samples.length
    · rw [if_pos hlen] at hok; cases hok
    · rw [if_neg hlen] at hok
      by_cases hpat : ¬ (names.all samplePatternMatch)
      · rw [if_pos hpat] at hok; cases hok
      · rw [if_neg hpat] at hok
        cases hok
        have hlen9 : (p.header.take 9).length = 9 := by
          rw [List.length_take]
          omega
        exact List.take_left' hlen9

/-- C7 witness: the three behaviours at concrete inputs. -/
theorem claim_C7_witness :
    isErrB (change_sample_names pC79 ["a", "b"]) = true
    ∧ isErrB (change_sample_names pC79 ["a b"]) = true
    ∧ change_sample_names pC79 ["s2"] =
        .ok { pC79 with samples := ["s2"], header := pC79.header.take 9 ++ ["s2"] } :=
  ⟨(claim_C7_change_sample_names pC79 ["a", "b"]).1 (by decide),
   (claim_C7_change_sample_names pC79 ["a b"]).2.1 ⟨"a b", by decide, by decide⟩,
   (claim_C7_change_sample_names pC79 ["s2"]).2.2.1 (by decide) (by decide)⟩

/-- C8 counterexample: on `recC8` the target allele list `["A"] ++ ["A"]`
*equals* the current allele list of the record, yet `update_genotypes`
rewrites the genotype `1` to `0` (`alleles.index` returns the first
occurrence of the duplicated symbol), so the operation is not a no-op. -/
theorem claim_C8_counterexample :
    recC8.ref = "A" ∧ recC8.alts = ["A"] ∧ recC8.alleles = ["A", "A"]
    ∧ recC8.sample_data = ["1"]
    ∧ update_genotypes recC8 "A" ["A"] =
        .ok { recC8 with
              sample_data := ["0"],
              line := ["X", "5", ".", "A", "A", ".", ".", ".", "GT", "0"] } :=
  ⟨rfl, rfl, rfl, rfl, rfl⟩

/-- C8 (amended): when the current allele list is duplicate-free, every
haplotype token is the canonical decimal numeral of an in-range allele
index, and the line is the serialization invariant of a parsed record,
`update_genotypes` with the identical allele list is a no-op (hence also
idempotent). -/
theorem claim_C8_remap_noop (r : VariantRecord) (ref : String) (alts : List String)
    (hall : r.alleles = ref :: alts)
    (hnd : r.alleles.Nodup)
    (hline : r.line = r.variant_data ++ r.sample_data)
    (htok : ∀ s ∈ r.sample_data, ∀ t ∈ gtToks s,
      ∃ n : Nat, pyInt t = some (Int.ofNat n) ∧ n < r.alleles.length ∧ toString n = t) :
    update_genotypes r ref alts = .ok r := by
  have htokfacts : ∀ s ∈ r.sample_data, ∀ t ∈ gtToks s,
      pyIntE t = .ok (Int.ofNat (tokIdx t)) ∧ tokIdx t < r.alleles.length
      ∧ toString (tokIdx t) = t := by
    intro s hs t ht
    obtain ⟨n, h1, h2, h3⟩ := htok s hs t ht
    have hg : tokIdx t = n := by
      unfold tokIdx
      rw [h1]
      simp
    rw [hg]
    refine ⟨?_, h2, h3⟩
    unfold pyIntE
    rw [h1]
  have hA : ∀ s ∈ r.sample_data,
      sampleFullGenotype r s = .ok ((gtToks s).map (tokAllele r)) := by
    intro s hs
    unfold sampleFullGenotype
    refine listMapM_congr_ok _ _ (gtToks s) ?_
    intro t ht
    obtain ⟨h1, h2, h3⟩ := htokfacts s hs t ht
    rw [h1]
    simp only [exBind_ok]
    unfold tokAllele
    exact pyGetE_nat h2
  have hB : ∀ s ∈ r.sample_data,
      listMapM (pyIndexE (ref :: alts)) ((gtToks s).map (tokAllele r)) =
        .ok ((gtToks s).map tokIdx) := by
    intro s hs
    rw [listMapM_map]
    refine listMapM_congr_ok _ _ (gtToks s) ?_
    intro t ht
    obtain ⟨h1, h2, h3⟩ := htokfacts s hs t ht
    rw [← hall]
    unfold pyIndexE tokAllele
    rw [pyIndex_getD hnd h2]
  have hC : ∀ s ∈ r.sample_data, rebuildSample s ((gtToks s).map tokIdx) = s := by
    intro s hs
    unfold rebuildSample
    rw [List.map_map]
    have hmapid : (gtToks s).map (toString ∘ tokIdx) = gtToks s := by
      have h1 : (gtToks s).map (toString ∘ tokIdx) = (gtToks s).map (fun t => t) :=
        List.map_congr_left (fun t ht => (htokfacts s hs t ht).2.2)
      rw [h1]
      simp
    rw [hmapid]
    unfold gtToks
    rw [pyJoin_pySplit]
    conv_rhs => rw [← pyJoin_pySplit ':' s, pySplit_cons ':' s]
  unfold update_genotypes
  rw [listMapM_congr_ok _ _ r.sample_data hA]
  simp only [exBind_ok]
  rw [listMapM_map, listMapM_congr_ok _ _ r.sample_data hB]
  simp only [exBind_ok]
  have hzip : List.zipWith rebuildSample r.sample_data
      (r.sample_data.map (fun s => (gtToks s).map tokIdx)) = r.sample_data := by
    rw [List.zipWith_map_right, List.zipWith_same]
    have h1 := List.map_congr_left hC
    rw [h1]
    simp
  rw [hzip, ← hline]

/-- C8 witness: on a duplicate-free record with canonical genotype tokens,
remapping with the identical allele list is the identity. -/
theorem claim_C8_witness : update_genotypes recC8ok "A" ["T"] = .ok recC8ok := by
  refine claim_C8_remap_noop recC8ok "A" ["T"] rfl (by decide) rfl ?_
  intro s hs t ht
  have hs' : s = "0/1:30" := by
    have hsd : recC8ok.sample_data = ["0/1:30"] := rfl
    rw [hsd] at hs
    simpa using hs
  subst hs'
  have htoks : gtToks "0/1:30" = ["0", "1"] := rfl
  rw [htoks] at ht
  have ht' : t = "0" ∨ t = "1" := by simpa using ht
  rcases ht' with rfl | rfl
  · exact ⟨0, rfl, by decide, rfl⟩
  · exact ⟨1, rfl, by decide, rfl⟩

/-- C9: `add_meta` rejects (case-insensitively) reserved keys and leaves the
metadata unchanged, silently ignores a rendered line already present, and
otherwise appends the rendered line at the end. -/
theorem claim_C9_add_meta (p : VCFParser) (key value : String) :
    (pyLower key ∈ reservedKeys → isErrB (add_meta p key value) = true)
    ∧ (pyLower key ∉ reservedKeys → metaLine key value ∈ p.metadata →
        add_meta p key value = .ok p)
    ∧ (pyLower key ∉ reservedKeys → metaLine key value ∉ p.metadata →
        add_meta p key value = .ok { p with metadata := p.metadata ++ [metaLine key value] }) := by
  refine ⟨?_, ?_, ?_⟩
  · intro hres
    unfold add_meta
    rw [if_pos hres]
    rfl
  · intro hres hmem
    unfold add_meta
    rw [if_neg hres, if_pos hmem]
  · intro hres hmem
    unfold add_meta
    rw [if_neg hres, if_neg hmem]

/-- C9 witness: the three branches at concrete inputs. -/
theorem claim_C9_witness :
    isErrB (add_meta pC79 "INFO" "z") = true
    ∧ add_meta pC79 "x" "1" = .ok pC79
    ∧ add_meta pC79 "y" "2" = .ok { pC79 with metadata := ["##x=1", "##y=2"] } :=
  ⟨(claim_C9_add_meta pC79 "INFO" "z").1 (by decide),
   (claim_C9_add_meta pC79 "x" "1").2.1 (by decide) (by decide),
   (claim_C9_add_meta pC79 "y" "2").2.2 (by decide) (by decide)⟩

/-- C10: whenever the genotype sub-field of some sample contains the no-call
character `'.'`, `update_genotypes` raises for every target allele list,
because every slash-delimited haplotype token goes through `int(...)`. -/
theorem claim_C10_nocall_remap_raises (r : VariantRecord) (ref : String) (alts : List String)
    (h : ∃ s ∈ r.sample_data, ∃ t ∈ gtToks s, ('.' : Char) ∈ t.data) :
    isErrB (update_genotypes r ref alts) = true := by
  obtain ⟨s, hs, t, ht, hdot⟩ := h
  have htok : isErrB (exBind (pyIntE t) (fun hap => pyGetE r.alleles hap)) = true := by
    have hnone : pyInt t = none := pyInt_none_of_dot hdot
    have hE : pyIntE t = .error ("ValueError: invalid literal for int: " ++ t) := by
      unfold pyIntE
      rw [hnone]
    rw [hE]
    rfl
  have hsample : isErrB (sampleFullGenotype r s) = true := by
    unfold sampleFullGenotype
    exact listMapM_err_of_mem ht htok
  have houter : isErrB (listMapM (sampleFullGenotype r) r.sample_data) = true :=
    listMapM_err_of_mem hs hsample
  unfold update_genotypes
  cases hmm : listMapM (sampleFullGenotype r) r.sample_data with
  | error e => simp
  | ok fg => rw [hmm] at houter; cases houter

/-- C10 witness: the `./.` record cannot be remapped. -/
theorem claim_C10_witness : isErrB (update_genotypes recC10 "A" ["T"]) = true :=
  claim_C10_nocall_remap_raises recC10 "A" ["T"] (by decide)
